/-
Verification of the ClassCharts integration (custom_components/classcharts).

Shallow embedding of the coordinator (`__init__.py`) and the calendar
rendering (`calendar.py`).  Python dicts are modelled as insertion-ordered
association lists with the exact dict operations the source uses
(lookup, item assignment, setdefault, order-preserving comprehension).
Dates are modelled as integers (day numbers); `timedelta(days=n)` is `+ n`
and date comparison is integer comparison, which is faithful because the
source only adds whole days and compares dates.
-/
import Mathlib

namespace ClassCharts

/-! ## Python dict model -/

/-- `d.get(k)` / `d[k]` read: first binding wins (keys are unique in a real
dict, so this matches). -/
def dlookup {α β : Type} [DecidableEq α] : List (α × β) → α → Option β
  | [], _ => none
  | (k, v) :: rest, k0 => if k0 = k then some v else dlookup rest k0

/-- `d[k] = v`: replace in place if the key exists (keeping its position),
otherwise append at the end — Python dict assignment semantics. -/
def dinsert {α β : Type} [DecidableEq α] : List (α × β) → α → β → List (α × β)
  | [], k, v => [(k, v)]
  | (k1, v1) :: rest, k, v =>
    if k = k1 then (k, v) :: rest else (k1, v1) :: dinsert rest k v

/-- `d.setdefault(k, v)`: append `(k, v)` at the end iff `k` is absent. -/
def dsetdefault {α β : Type} [DecidableEq α] (l : List (α × β)) (k : α) (v : β) :
    List (α × β) :=
  if (dlookup l k).isSome then l else l ++ [(k, v)]

/-! ## Calendar rendering (`calendar.py`) -/

/-- A parsed timestamp (year-month-day hour:minute:second). -/
structure PDateTime where
  year : Nat
  month : Nat
  day : Nat
  hour : Nat
  minute : Nat
  second : Nat
deriving DecidableEq, Repr

/-- Read exactly `n` decimal digits from the front of `cs`, returning their
value and the rest of the input. -/
def readN : Nat → List Char → Nat → Option (Nat × List Char)
  | 0, cs, acc => some (acc, cs)
  | n + 1, c :: cs, acc =>
    if c.isDigit then readN n cs (acc * 10 + (c.toNat - 48)) else none
  | _ + 1, [], _ => none

/-- Consume one expected character. -/
def expectCh (ch : Char) : List Char → Option (List Char)
  | c :: cs => if c = ch then some cs else none
  | [] => none

def isLeapYear (y : Nat) : Bool :=
  (y % 4 == 0 && y % 100 != 0) || y % 400 == 0

def daysInMonth (y m : Nat) : Nat :=
  if m = 2 then (if isLeapYear y then 29 else 28)
  else if m = 4 ∨ m = 6 ∨ m = 9 ∨ m = 11 then 30
  else 31

/-- Modelled external dependency `homeassistant.util.dt.parse_datetime`
(the only time parser `calendar.py` uses).  It parses full ISO-8601
date-time strings of the shape `YYYY-MM-DD[T ]HH:MM[:SS]` (via ciso8601 or
a regex fallback, both of which require a leading calendar date) and
returns `None` for anything else — in particular a bare `HH:MM`
time-of-day string does not parse.  Fractional seconds and timezone
suffixes are left out of the model; no claim exercises them. -/
def parse_datetime (s : String) : Option PDateTime := do
  let (y, cs) ← readN 4 s.toList 0
  let cs ← expectCh '-' cs
  let (mo, cs) ← readN 2 cs 0
  let cs ← expectCh '-' cs
  let (d, cs) ← readN 2 cs 0
  let cs ← (match cs with
    | 'T' :: rest => some rest
    | ' ' :: rest => some rest
    | _ => none)
  let (h, cs) ← readN 2 cs 0
  let cs ← expectCh ':' cs
  let (mi, cs) ← readN 2 cs 0
  let (sec, cs) ← (match cs with
    | ':' :: rest => readN 2 rest 0
    | _ => some (0, cs))
  match cs with
  | [] =>
    if 1 ≤ mo ∧ mo ≤ 12 ∧ 1 ≤ d ∧ d ≤ daysInMonth y mo ∧
        h ≤ 23 ∧ mi ≤ 59 ∧ sec ≤ 59 then
      some ⟨y, mo, d, h, mi, sec⟩
    else none
  | _ => none

/-- Modelled external call `datetime.strptime(s, "%Y-%m-%d").date()` used by
`async_get_events` to read `lesson["date"]`; raises (here: `none`) on any
string that is not a valid `YYYY-MM-DD` calendar date. -/
def parse_ymd (s : String) : Option (Nat × Nat × Nat) := do
  let (y, cs) ← readN 4 s.toList 0
  let cs ← expectCh '-' cs
  let (mo, cs) ← readN 2 cs 0
  let cs ← expectCh '-' cs
  let (d, cs) ← readN 2 cs 0
  match cs with
  | [] =>
    if 1 ≤ mo ∧ mo ≤ 12 ∧ 1 ≤ d ∧ d ≤ daysInMonth y mo then some (y, mo, d)
    else none
  | _ => none

/-- A lesson record as returned by the remote client: a dict whose optional
keys are modelled as `Option String` (`none` = key absent / value `None`). -/
structure Lesson where
  date : Option String
  start_time : Option String
  end_time : Option String
  subject_name : Option String
  lesson_name : Option String
  teacher_name : Option String
  room_name : Option String
  period_name : Option String
  note : Option String
  pupil_note : Option String
deriving DecidableEq, Repr

/-- Python truthiness of an optional string field: present and non-empty. -/
def truthy (o : Option String) : Bool := !(o.getD "").isEmpty

/-- The host platform's `CalendarEvent` shape, restricted to the fields this
integration sets.  The host constructor rejects missing (`None`) start/end
values, so `_lesson_to_event` yields no event when a time fails to parse
(matching the broad exception handler around the construction). -/
structure CalendarEvent where
  start : PDateTime
  end_ : PDateTime
  summary : String
  description : Option String
  location : Option String
deriving DecidableEq, Repr

/-- `ClassChartsCalendarEntity._lesson_to_event` from `calendar.py`.
The `lesson_date` argument is accepted — as in the source — but unused by
the current implementation (the commented-out `HH:MM` parsing was the only
consumer). -/
def lesson_to_event (lesson : Lesson) (lesson_date : Nat × Nat × Nat) :
    Option CalendarEvent :=
  let start_time_str := lesson.start_time.getD ""
  let end_time_str := lesson.end_time.getD ""
  if start_time_str.isEmpty || end_time_str.isEmpty then none
  else
    let start_datetime := parse_datetime start_time_str
    let end_datetime := parse_datetime end_time_str
    let subject := lesson.subject_name.getD "Unknown Subject"
    let lesson_name := lesson.lesson_name.getD ""
    let title :=
      if !lesson_name.isEmpty && lesson_name ≠ subject then
        subject ++ " - " ++ lesson_name
      else subject
    let description_parts :=
      (if truthy lesson.teacher_name then
        ["Teacher: " ++ lesson.teacher_name.getD ""] else []) ++
      (if truthy lesson.room_name then
        ["Room: " ++ lesson.room_name.getD ""] else []) ++
      (if truthy lesson.period_name then
        ["Period: " ++ lesson.period_name.getD ""] else []) ++
      (if truthy lesson.note then
        ["Note: " ++ lesson.note.getD ""] else []) ++
      (if truthy lesson.pupil_note then
        ["Your Note: " ++ lesson.pupil_note.getD ""] else [])
    let description :=
      if description_parts.isEmpty then none
      else some (String.intercalate "\n" description_parts)
    match start_datetime, end_datetime with
    | some s, some e => some ⟨s, e, title, description, lesson.room_name⟩
    | _, _ => none

/-- The per-lesson part of `async_get_events`: read `lesson["date"]`
(skipping the lesson on a missing or unparsable date), convert with
`_lesson_to_event`, and keep the lessons that produced an event. -/
def lessons_to_events (lessons : List Lesson) : List CalendarEvent :=
  lessons.filterMap (fun l =>
    match l.date.bind parse_ymd with
    | none => none
    | some d => lesson_to_event l d)

/-! Spec-side definitions for the rendering contract (C2), written from the
spec's words, to be compared with `lesson_to_event`. -/

/-- Spec: the description's fields, in the fixed order
Teacher, Room, Period, Note, Your Note. -/
def specDescriptionFields (lesson : Lesson) : List (String × Option String) :=
  [("Teacher", lesson.teacher_name), ("Room", lesson.room_name),
   ("Period", lesson.period_name), ("Note", lesson.note),
   ("Your Note", lesson.pupil_note)]

/-- Spec: concatenate, joined by newline, a `"Label: value"` line for
exactly the fields present on the record; absent when no field is present. -/
def specDescription (lesson : Lesson) : Option String :=
  let lines := (specDescriptionFields lesson).filterMap (fun lv =>
    if truthy lv.2 then some (lv.1 ++ ": " ++ lv.2.getD "") else none)
  if lines.isEmpty then none else some (String.intercalate "\n" lines)

/-- Spec: the title is `"{subject} - {lesson_name}"` when the lesson name is
present and differs from the subject, and just the subject otherwise. -/
def specTitle (lesson : Lesson) : String :=
  let subject := lesson.subject_name.getD "Unknown Subject"
  if truthy lesson.lesson_name && (lesson.lesson_name.getD "" ≠ subject) then
    subject ++ " - " ++ lesson.lesson_name.getD ""
  else subject

/-! ## Coordinator (`__init__.py`)

The remote client (`pyclasscharts.ParentClient`) is an external black box;
it is modelled as an oracle fixing, for one refresh cycle, whether login
succeeds, what `get_pupils` returns, which pupil selections succeed, and
what `get_lessons` returns for each (selected pupil, date).  Remote calls
made by the coordinator are recorded in a trace so that claims about which
fetches are issued can be stated. -/

/-- A calendar date as a day number. -/
abbrev Date := Int

/-- A pupil record (`pupil["id"]` is the only field the coordinator reads;
the rest of the dict is opaque payload). -/
structure Pupil where
  id : Int
  payload : String
deriving DecidableEq, Repr

/-- Outcome of a `client.get_lessons({"date": ...})` call: the call raises,
returns a falsy response (cached as `[]` via `.get("data", [])`), or
returns a response whose `"data"` is `ls`. -/
inductive Fetch (L : Type) where
  | err : Fetch L
  | empty : Fetch L
  | ok (ls : List L) : Fetch L
deriving DecidableEq, Repr

/-- The remote-client oracle for one cycle.  `loginOk` is the result of
`ClassChartsCoordinator.login` (which catches every exception and returns
a bool); `getPupils = none` models `client.get_pupils` raising or
returning a non-iterable falsy value — either way the cycle fails before
any coordinator state is assigned.  `selectOk` is the result of
`select_pupil` (also exception-catching, bool-returning).  `getLessons p d`
is the lessons response once pupil `p` has been selected. -/
structure Client (L : Type) where
  loginOk : Bool
  getPupils : Option (List Pupil)
  selectOk : Int → Bool
  getLessons : Int → Date → Fetch L

/-- A remote call observable in the trace. -/
inductive RCall where
  | select (pid : Int) : RCall
  | fetch (pid : Int) (d : Date) : RCall
deriving DecidableEq, Repr

/-- The timetable cache: dict pupil id → dict date → lesson list. -/
abbrev Cache (L : Type) := List (Int × List (Date × List L))

/-- Read one cache entry: `self._timetable_cache.get(pid, {})` then key `d`. -/
def cacheGet {L : Type} (c : Cache L) (pid : Int) (d : Date) :
    Option (List L) :=
  match dlookup c pid with
  | none => none
  | some inner => dlookup inner d

/-- Lines 174-176: `setdefault(pupil_id, {})` then
`self._timetable_cache[pupil_id][d] = lessons_data`. -/
def cachePut {L : Type} (c : Cache L) (pid : Int) (d : Date) (ls : List L) :
    Cache L :=
  let c0 := dsetdefault c pid []
  dinsert c0 pid (dinsert ((dlookup c0 pid).getD []) d ls)

/-- `ClassChartsCoordinator.prune_cache_for_pupil`: keep the entries whose
date is on or after `today - 7`, and (as in the source) assign the result
back unconditionally under the pupil's key. -/
def prune_cache_for_pupil {L : Type} (today : Date) (pid : Int)
    (c : Cache L) : Cache L :=
  let cache := (dlookup c pid).getD []
  let cutoff := today - 7
  dinsert c pid (cache.filter (fun e => decide (cutoff ≤ e.1)))

/-- The per-date loop of `_cache_lesson_data_for_pupil_for_dates`: each date
is fetched (the attempt is recorded even when the call raises); a raising
date is skipped, any other outcome overwrites the cache entry. -/
def cacheLessonsAux {L : Type} (cl : Client L) (pid : Int) :
    List Date → Cache L → Cache L × List RCall
  | [], c => (c, [])
  | d :: rest, c =>
    let c1 :=
      match cl.getLessons pid d with
      | .err => c
      | .empty => cachePut c pid d []
      | .ok ls => cachePut c pid d ls
    let res := cacheLessonsAux cl pid rest c1
    (res.1, .fetch pid d :: res.2)

/-- `ClassChartsCoordinator._cache_lesson_data_for_pupil_for_dates`:
select the pupil first; on selection failure return with the cache
untouched, otherwise run the per-date loop. -/
def cache_lesson_data_for_pupil_for_dates {L : Type} (cl : Client L)
    (pid : Int) (dates : List Date) (c : Cache L) : Cache L × List RCall :=
  if cl.selectOk pid then
    let res := cacheLessonsAux cl pid dates c
    (res.1, .select pid :: res.2)
  else (c, [.select pid])

/-- `[start_date + timedelta(days=i) for i in range((end_date - start_date).days + 1)]`. -/
def dateRange (s e : Date) : List Date :=
  (List.range (e - s + 1).toNat).map (fun (i : Nat) => s + (i : Int))

/-- `[start_date + timedelta(days=i) for i in range(8)]` (line 78). -/
def fetchWindow (today : Date) : List Date :=
  (List.range 8).map (fun (i : Nat) => today + (i : Int))

/-- `ClassChartsCoordinator.get_lesson_data_for_pupil_between_dates`:
build the inclusive date range, ensure the pupil's cache dict exists,
fetch the uncached dates, then concatenate the cached lists in date order
(skipping dates that are still uncached).  Returns the lesson list, the
new cache, and the trace of remote calls. -/
def get_lesson_data_for_pupil_between_dates {L : Type} (cl : Client L)
    (pid : Int) (start_date end_date : Date) (c : Cache L) :
    List L × Cache L × List RCall :=
  let dates := dateRange start_date end_date
  let c0 := dsetdefault c pid []
  let uncached := dates.filter (fun d => (cacheGet c0 pid d).isNone)
  let res := cache_lesson_data_for_pupil_for_dates cl pid uncached c0
  let lessons_all := dates.foldl (fun acc d =>
    match cacheGet res.1 pid d with
    | some ls => acc ++ ls
    | none => acc) []
  (lessons_all, res.1, res.2)

/-- The coordinator's published state: the pupil roster dict (`self._pupils`,
also the value returned to the host as `self.data`) and the timetable
cache (`self._timetable_cache`). -/
structure CoordState (L : Type) where
  pupils : List (Int × Pupil)
  cache : Cache L
deriving DecidableEq, Repr

/-- Result of one refresh cycle: `ok = false` models `UpdateFailed` being
raised; `state` is the coordinator's state afterwards. -/
structure UpdateResult (L : Type) where
  ok : Bool
  state : CoordState L
  trace : List RCall
deriving DecidableEq, Repr

/-- `{pupil["id"]: pupil for pupil in pupils_list}` (line 59): a dict
comprehension, i.e. repeated insertion in list order. -/
def rosterDict (pupils_list : List Pupil) : List (Int × Pupil) :=
  pupils_list.foldl (fun d p => dinsert d p.id p) []

/-- The per-pupil body of the refresh loop (lines 70-81): ensure the cache
entry exists, prune, then fetch and cache the 8-day window. -/
def refreshPupilStep {L : Type} (cl : Client L) (today : Date) (c : Cache L)
    (pid : Int) : Cache L × List RCall :=
  let c0 := dsetdefault c pid []
  let c1 := prune_cache_for_pupil today pid c0
  cache_lesson_data_for_pupil_for_dates cl pid (fetchWindow today) c1

/-- One iteration of the refresh loop, threading the cache and appending the
pupil's remote calls to the trace. -/
def refreshFoldStep {L : Type} (cl : Client L) (today : Date)
    (acc : Cache L × List RCall) (pid : Int) : Cache L × List RCall :=
  let res := refreshPupilStep cl today acc.1 pid
  (res.1, acc.2 ++ res.2)

/-- `ClassChartsCoordinator._async_update_data`.  A login failure or a
failing/falsy `get_pupils` raises `UpdateFailed` before any coordinator
state is assigned; otherwise the roster is replaced wholesale and every
pupil in it is processed in roster order.  Nothing inside the per-pupil
loop can raise (`select_pupil` and the per-date loop catch everything),
so a cycle that gets past the roster fetch reports success. -/
def async_update_data {L : Type} (cl : Client L) (today : Date)
    (st : CoordState L) : UpdateResult L :=
  if !cl.loginOk then ⟨false, st, []⟩
  else
    match cl.getPupils with
    | none => ⟨false, st, []⟩
    | some pupils_list =>
      let pupils_dict := rosterDict pupils_list
      let res := (pupils_dict.map Prod.fst).foldl
        (refreshFoldStep cl today) (st.cache, [])
      ⟨true, ⟨pupils_dict, res.1⟩, res.2⟩

/-- The remote calls one pupil contributes to a refresh cycle. -/
def pupilTrace {L : Type} (cl : Client L) (today : Date) (pid : Int) :
    List RCall :=
  .select pid ::
    (if cl.selectOk pid then (fetchWindow today).map (RCall.fetch pid) else [])

/-- The remote calls of a whole refresh cycle, pupil by pupil. -/
def tracesFor {L : Type} (cl : Client L) (today : Date) :
    List Int → List RCall
  | [] => []
  | pid :: rest => pupilTrace cl today pid ++ tracesFor cl today rest

/-! ## Concrete instances used by the claims -/

/-- The spec's scenario lesson record (times as `HH:MM`), including the
`date` key that `async_get_events` requires. -/
def hhmmLesson : Lesson :=
  ⟨some "2024-05-01", some "09:00", some "09:50", some "Maths",
   none, none, some "R1", none, none, none⟩

/-- The scenario record exactly as the spec writes it (no `date` key). -/
def hhmmLessonNoDate : Lesson :=
  ⟨none, some "09:00", some "09:50", some "Maths",
   none, none, some "R1", none, none, none⟩

/-- The scenario lesson with full ISO-8601 timestamps instead of `HH:MM`. -/
def isoLesson : Lesson :=
  ⟨some "2024-05-01", some "2024-05-01T09:00:00", some "2024-05-01T09:50:00",
   some "Maths", none, none, some "R1", none, none, none⟩

/-- A lesson with every optional field present. -/
def fullLesson : Lesson :=
  ⟨some "2024-05-01", some "2024-05-01T09:00:00", some "2024-05-01T09:50:00",
   some "Maths", some "Set 1", some "Ms Smith", some "R1", some "P1",
   some "bring books", some "revise"⟩

/-- A client whose login fails. -/
def clientLoginFail : Client Nat :=
  ⟨false, some [], fun _ => true, fun _ _ => .err⟩

/-- A client that authenticates, reports one pupil (42), and fails every
pupil selection. -/
def clientSelectFail : Client Nat :=
  ⟨true, some [⟨42, "a"⟩], fun _ => false, fun _ _ => .err⟩

/-- Coordinator state holding a stale cache entry (date −8 relative to
today = 0) for pupil 42. -/
def stateStale : CoordState Nat := ⟨[], [(42, [(-8, [7])])]⟩

/-- A client with two pupils where selection succeeds only for pupil 43. -/
def clientTwoPupils : Client Nat :=
  ⟨true, some [⟨42, "a"⟩, ⟨43, "b"⟩], fun p => decide (p = 43),
   fun p _ => if p = 43 then .ok [5] else .err⟩

/-- An always-succeeding client. -/
def clientOkAll : Client Nat :=
  ⟨true, some [], fun _ => true, fun _ _ => .ok [1]⟩

/-- A cache where pupil 7 has date 1 cached. -/
def cacheWithDate1 : Cache Nat := [(7, [(1, [9])])]

/-- A cache where pupil 2 has date 0 cached. -/
def cacheP2 : Cache Nat := [(2, [(0, [3])])]

/-! ## Dict lemmas -/

theorem dlookup_dinsert {α β : Type} [DecidableEq α]
    (l : List (α × β)) (k : α) (v : β) (k0 : α) :
    dlookup (dinsert l k v) k0 = if k0 = k then some v else dlookup l k0 := by
  induction l with
  | nil => simp [dinsert, dlookup]
  | cons hd tl ih =>
    obtain ⟨k1, v1⟩ := hd
    by_cases hk : k = k1
    · subst hk
      by_cases h0 : k0 = k <;> simp [dinsert, dlookup, h0]
    · by_cases h0 : k0 = k1
      · subst h0
        simp [dinsert, dlookup, hk, Ne.symm hk]
      · simp [dinsert, dlookup, hk, h0, ih]

theorem dlookup_append {α β : Type} [DecidableEq α]
    (l1 l2 : List (α × β)) (k : α) :
    dlookup (l1 ++ l2) k =
      match dlookup l1 k with
      | some v => some v
      | none => dlookup l2 k := by
  induction l1 with
  | nil => simp [dlookup]
  | cons hd tl ih =>
    obtain ⟨k1, v1⟩ := hd
    by_cases h : k = k1 <;> simp [dlookup, h, ih]

theorem dlookup_dsetdefault {α β : Type} [DecidableEq α]
    (l : List (α × β)) (k : α) (v : β) (k0 : α) :
    dlookup (dsetdefault l k v) k0 =
      if k0 = k then some ((dlookup l k).getD v) else dlookup l k0 := by
  unfold dsetdefault
  rcases h : dlookup l k with _ | w
  · simp only [h, Option.isSome_none, Bool.false_eq_true, if_false]
    rw [dlookup_append]
    by_cases h0 : k0 = k
    · subst h0
      simp [h, dlookup]
    · rcases h1 : dlookup l k0 with _ | u <;> simp [dlookup, h0, h1]
  · by_cases h0 : k0 = k <;> simp [h, h0]

theorem dinsert_of_absent {α β : Type} [DecidableEq α]
    (l : List (α × β)) (k : α) (v : β) (h : dlookup l k = none) :
    dinsert l k v = l ++ [(k, v)] := by
  induction l with
  | nil => simp [dinsert]
  | cons hd tl ih =>
    obtain ⟨k1, v1⟩ := hd
    by_cases hk : k = k1
    · subst hk
      simp [dlookup] at h
    · simp only [dlookup, if_neg hk] at h
      simp [dinsert, hk, ih h]

theorem dinsert_self {α β : Type} [DecidableEq α]
    (l : List (α × β)) (k : α) (v : β) (h : dlookup l k = some v) :
    dinsert l k v = l := by
  induction l with
  | nil => simp [dlookup] at h
  | cons hd tl ih =>
    obtain ⟨k1, v1⟩ := hd
    by_cases hk : k = k1
    · subst hk
      have h1 : v1 = v := by simpa [dlookup] using h
      simp [dinsert, h1]
    · simp only [dlookup, if_neg hk] at h
      simp [dinsert, hk, ih h]

/-- Looking up a key in an association list filtered by a predicate on keys. -/
theorem dlookup_filter_key {α β : Type} [DecidableEq α]
    (l : List (α × β)) (p : α → Bool) (k : α) :
    dlookup (l.filter (fun e => p e.1)) k =
      if p k then dlookup l k else none := by
  induction l with
  | nil => simp [dlookup]
  | cons hd tl ih =>
    obtain ⟨k1, v1⟩ := hd
    by_cases hk : k = k1
    · subst hk
      by_cases hp : p k <;> simp [List.filter, hp, dlookup, ih]
    · by_cases hp : p k1 <;> by_cases hq : p k <;>
        simp [List.filter, hp, hq, dlookup, hk, ih]

/-! ## Cache lemmas -/

theorem cacheGet_dsetdefault {L : Type} (c : Cache L) (pid : Int)
    (p : Int) (d : Date) :
    cacheGet (dsetdefault c pid []) p d = cacheGet c p d := by
  unfold cacheGet
  rw [dlookup_dsetdefault]
  by_cases h : p = pid
  · subst h
    rcases h1 : dlookup c p with _ | inner <;> simp [h1, dlookup]
  · simp [h]

/-- Normal form for cache reads: a missing pupil key behaves like an empty
inner dict. -/
theorem cacheGet_eq {L : Type} (c : Cache L) (p : Int) (d : Date) :
    cacheGet c p d = dlookup ((dlookup c p).getD []) d := by
  unfold cacheGet
  rcases h : dlookup c p with _ | inner <;> simp [h, dlookup]

theorem cacheGet_cachePut {L : Type} (c : Cache L) (q : Int) (d : Date)
    (ls : List L) (p : Int) (d' : Date) :
    cacheGet (cachePut c q d ls) p d' =
      if p = q ∧ d' = d then some ls else cacheGet c p d' := by
  by_cases hp : p = q
  · subst hp
    by_cases hd : d' = d <;>
      · simp only [cacheGet_eq, cachePut, dlookup_dinsert, dlookup_dsetdefault]
        simp [hd, dlookup_dinsert, dlookup_dsetdefault]
  · simp only [cacheGet_eq, cachePut, dlookup_dinsert, dlookup_dsetdefault]
    simp [hp]

/-- `dlookup` through the date filter used by pruning. -/
theorem dlookup_filter_ge {L : Type} (l : List (Date × List L))
    (cutoff d : Date) :
    dlookup (l.filter (fun e => decide (cutoff ≤ e.1))) d =
      if cutoff ≤ d then dlookup l d else none := by
  induction l with
  | nil => simp [dlookup]
  | cons e tl ih =>
    obtain ⟨k1, v1⟩ := e
    by_cases hk : d = k1
    · subst hk
      by_cases hc : cutoff ≤ d <;> simp [List.filter, hc, dlookup, ih]
    · by_cases hc : cutoff ≤ k1 <;> by_cases hc2 : cutoff ≤ d <;>
        simp [List.filter, hc, hc2, dlookup, hk, ih]

theorem cacheGet_prune {L : Type} (today : Date) (q : Int) (c : Cache L)
    (p : Int) (d : Date) :
    cacheGet (prune_cache_for_pupil today q c) p d =
      if p = q then (if today - 7 ≤ d then cacheGet c q d else none)
      else cacheGet c p d := by
  simp only [cacheGet_eq]
  rw [show prune_cache_for_pupil today q c =
        dinsert c q (((dlookup c q).getD []).filter
          (fun e => decide (today - 7 ≤ e.1))) from rfl]
  rw [dlookup_dinsert]
  by_cases hp : p = q
  · subst hp
    rw [if_pos rfl, Option.getD_some, dlookup_filter_ge]
    by_cases hd : today - 7 ≤ d <;> simp [hd]
  · simp [hp]

theorem cacheLessonsAux_frame {L : Type} (cl : Client L) (q : Int)
    (ds : List Date) (c : Cache L) (p : Int) (d : Date) (hp : p ≠ q) :
    cacheGet (cacheLessonsAux cl q ds c).1 p d = cacheGet c p d := by
  induction ds generalizing c with
  | nil => rfl
  | cons d0 rest ih =>
    unfold cacheLessonsAux
    rcases cl.getLessons q d0 with _ | _ | ls <;>
      simp [ih, cacheGet_cachePut, hp]

theorem cacheLessonsAux_notmem {L : Type} (cl : Client L) (q : Int)
    (ds : List Date) (c : Cache L) (d : Date) (hd : d ∉ ds) :
    cacheGet (cacheLessonsAux cl q ds c).1 q d = cacheGet c q d := by
  induction ds generalizing c with
  | nil => rfl
  | cons d0 rest ih =>
    simp only [List.mem_cons, not_or] at hd
    unfold cacheLessonsAux
    rcases cl.getLessons q d0 with _ | _ | ls <;>
      simp [ih _ hd.2, cacheGet_cachePut, hd.1]

theorem cacheLessonsAux_err {L : Type} (cl : Client L) (q : Int)
    (ds : List Date) (c : Cache L) (d : Date)
    (hf : cl.getLessons q d = .err) :
    cacheGet (cacheLessonsAux cl q ds c).1 q d = cacheGet c q d := by
  induction ds generalizing c with
  | nil => rfl
  | cons d0 rest ih =>
    unfold cacheLessonsAux
    by_cases hd : d0 = d
    · subst hd
      simp [hf, ih]
    · rcases cl.getLessons q d0 with _ | _ | ls <;>
        simp [ih, cacheGet_cachePut, Ne.symm hd]

theorem cacheLessonsAux_ok {L : Type} (cl : Client L) (q : Int)
    (ds : List Date) (c : Cache L) (d : Date) (ls : List L)
    (hf : cl.getLessons q d = .ok ls) (hd : d ∈ ds) :
    cacheGet (cacheLessonsAux cl q ds c).1 q d = some ls := by
  induction ds generalizing c with
  | nil => simp at hd
  | cons d0 rest ih =>
    unfold cacheLessonsAux
    by_cases hr : d ∈ rest
    · rcases cl.getLessons q d0 with _ | _ | ls0 <;> simp [ih _ hr]
    · have hd0 : d0 = d := by
        rcases List.mem_cons.mp hd with h | h
        · exact h.symm
        · exact absurd h hr
      rw [hd0]
      simp only [hf]
      rw [cacheLessonsAux_notmem cl q rest _ d hr, cacheGet_cachePut]
      simp

theorem cacheLessonsAux_trace {L : Type} (cl : Client L) (q : Int)
    (ds : List Date) (c : Cache L) :
    (cacheLessonsAux cl q ds c).2 = ds.map (RCall.fetch q) := by
  induction ds generalizing c with
  | nil => rfl
  | cons d0 rest ih =>
    unfold cacheLessonsAux
    rcases cl.getLessons q d0 with _ | _ | ls <;> simp [ih]

theorem cache_lessons_trace {L : Type} (cl : Client L) (pid : Int)
    (ds : List Date) (c : Cache L) :
    (cache_lesson_data_for_pupil_for_dates cl pid ds c).2 =
      .select pid ::
        (if cl.selectOk pid then ds.map (RCall.fetch pid) else []) := by
  unfold cache_lesson_data_for_pupil_for_dates
  by_cases h : cl.selectOk pid <;> simp [h, cacheLessonsAux_trace]

theorem cache_lessons_selectfail {L : Type} (cl : Client L) (pid : Int)
    (ds : List Date) (c : Cache L) (h : cl.selectOk pid = false) :
    (cache_lesson_data_for_pupil_for_dates cl pid ds c).1 = c := by
  unfold cache_lesson_data_for_pupil_for_dates
  simp [h]

theorem mem_dateRange (s e d : Int) : d ∈ dateRange s e ↔ s ≤ d ∧ d ≤ e := by
  unfold dateRange
  constructor
  · intro h
    obtain ⟨i, hi, hd⟩ := List.mem_map.mp h
    rw [List.mem_range] at hi
    have hd1 : s + (i : Int) = d := hd
    omega
  · intro h
    refine List.mem_map.mpr ⟨(d - s).toNat, List.mem_range.mpr (by omega), ?_⟩
    show s + ((d - s).toNat : Int) = d
    omega

theorem mem_fetchWindow (today d : Int) :
    d ∈ fetchWindow today ↔ today ≤ d ∧ d ≤ today + 7 := by
  unfold fetchWindow
  constructor
  · intro h
    obtain ⟨i, hi, hd⟩ := List.mem_map.mp h
    rw [List.mem_range] at hi
    have hd1 : today + (i : Int) = d := hd
    omega
  · intro h
    refine List.mem_map.mpr ⟨(d - today).toNat, List.mem_range.mpr (by omega), ?_⟩
    show today + ((d - today).toNat : Int) = d
    omega

/-! ## Refresh-loop lemmas -/

theorem refreshPupilStep_trace {L : Type} (cl : Client L) (today : Date)
    (c : Cache L) (pid : Int) :
    (refreshPupilStep cl today c pid).2 = pupilTrace cl today pid := by
  unfold refreshPupilStep pupilTrace
  rw [cache_lessons_trace]

theorem refreshPupilStep_frame {L : Type} (cl : Client L) (today : Date)
    (c : Cache L) (q p : Int) (d : Date) (hp : p ≠ q) :
    cacheGet (refreshPupilStep cl today c q).1 p d = cacheGet c p d := by
  unfold refreshPupilStep cache_lesson_data_for_pupil_for_dates
  by_cases hs : cl.selectOk q
  · simp only [hs, if_true]
    rw [cacheLessonsAux_frame _ _ _ _ _ _ hp, cacheGet_prune]
    simp [hp, cacheGet_dsetdefault]
  · simp only [hs, if_false, Bool.false_eq_true]
    rw [cacheGet_prune]
    simp [hp, cacheGet_dsetdefault]

theorem refreshPupilStep_selectfail {L : Type} (cl : Client L) (today : Date)
    (c : Cache L) (pid : Int) (d : Date) (hs : cl.selectOk pid = false) :
    cacheGet (refreshPupilStep cl today c pid).1 pid d =
      if today - 7 ≤ d then cacheGet c pid d else none := by
  unfold refreshPupilStep
  rw [cache_lessons_selectfail _ _ _ _ hs, cacheGet_prune]
  simp [cacheGet_dsetdefault]

theorem refreshPupilStep_err {L : Type} (cl : Client L) (today : Date)
    (c : Cache L) (pid : Int) (d : Date) (hs : cl.selectOk pid = true)
    (hf : cl.getLessons pid d = .err) (hd : today - 7 ≤ d) :
    cacheGet (refreshPupilStep cl today c pid).1 pid d = cacheGet c pid d := by
  unfold refreshPupilStep cache_lesson_data_for_pupil_for_dates
  simp only [hs, if_true]
  rw [cacheLessonsAux_err _ _ _ _ _ hf, cacheGet_prune]
  simp [hd, cacheGet_dsetdefault]

theorem refreshPupilStep_ok {L : Type} (cl : Client L) (today : Date)
    (c : Cache L) (pid : Int) (d : Date) (ls : List L)
    (hs : cl.selectOk pid = true) (hf : cl.getLessons pid d = .ok ls)
    (hd : d ∈ fetchWindow today) :
    cacheGet (refreshPupilStep cl today c pid).1 pid d = some ls := by
  unfold refreshPupilStep cache_lesson_data_for_pupil_for_dates
  simp only [hs, if_true]
  exact cacheLessonsAux_ok cl pid _ _ d ls hf hd

theorem refreshFold_trace {L : Type} (cl : Client L) (today : Date)
    (ids : List Int) (c : Cache L) (tr : List RCall) :
    (ids.foldl (refreshFoldStep cl today) (c, tr)).2 =
      tr ++ tracesFor cl today ids := by
  induction ids generalizing c tr with
  | nil => simp [tracesFor]
  | cons pid rest ih =>
    simp only [List.foldl_cons, tracesFor]
    rw [show refreshFoldStep cl today (c, tr) pid =
          ((refreshPupilStep cl today c pid).1,
            tr ++ (refreshPupilStep cl today c pid).2) from rfl]
    rw [ih, refreshPupilStep_trace]
    simp

theorem refreshFold_frame {L : Type} (cl : Client L) (today : Date)
    (ids : List Int) (c : Cache L) (tr : List RCall) (p : Int) (d : Date)
    (hp : p ∉ ids) :
    cacheGet (ids.foldl (refreshFoldStep cl today) (c, tr)).1 p d =
      cacheGet c p d := by
  induction ids generalizing c tr with
  | nil => rfl
  | cons pid rest ih =>
    simp only [List.mem_cons, not_or] at hp
    simp only [List.foldl_cons]
    rw [show refreshFoldStep cl today (c, tr) pid =
          ((refreshPupilStep cl today c pid).1,
            tr ++ (refreshPupilStep cl today c pid).2) from rfl]
    rw [ih _ _ hp.2, refreshPupilStep_frame _ _ _ _ _ _ hp.1]

theorem refreshFold_err {L : Type} (cl : Client L) (today : Date)
    (ids : List Int) (c : Cache L) (tr : List RCall) (p : Int) (d : Date)
    (hs : cl.selectOk p = true) (hf : cl.getLessons p d = .err)
    (hd : today - 7 ≤ d) :
    cacheGet (ids.foldl (refreshFoldStep cl today) (c, tr)).1 p d =
      cacheGet c p d := by
  induction ids generalizing c tr with
  | nil => rfl
  | cons pid rest ih =>
    simp only [List.foldl_cons]
    rw [show refreshFoldStep cl today (c, tr) pid =
          ((refreshPupilStep cl today c pid).1,
            tr ++ (refreshPupilStep cl today c pid).2) from rfl]
    rw [ih]
    by_cases hq : p = pid
    · subst hq
      exact refreshPupilStep_err cl today c p d hs hf hd
    · exact refreshPupilStep_frame cl today c pid p d hq

theorem refreshFold_ok {L : Type} (cl : Client L) (today : Date)
    (ids : List Int) (c : Cache L) (tr : List RCall) (p : Int) (d : Date)
    (ls : List L) (hs : cl.selectOk p = true)
    (hf : cl.getLessons p d = .ok ls) (hd : d ∈ fetchWindow today)
    (hmem : p ∈ ids) :
    cacheGet (ids.foldl (refreshFoldStep cl today) (c, tr)).1 p d =
      some ls := by
  induction ids generalizing c tr with
  | nil => simp at hmem
  | cons pid rest ih =>
    simp only [List.foldl_cons]
    rw [show refreshFoldStep cl today (c, tr) pid =
          ((refreshPupilStep cl today c pid).1,
            tr ++ (refreshPupilStep cl today c pid).2) from rfl]
    by_cases hr : p ∈ rest
    · exact ih _ _ hr
    · have hq : pid = p := by
        rcases List.mem_cons.mp hmem with h | h
        · exact h.symm
        · exact absurd h hr
      subst hq
      rw [refreshFold_frame _ _ _ _ _ _ _ hr]
      exact refreshPupilStep_ok cl today c pid d ls hs hf hd

theorem refreshFold_selectfail {L : Type} (cl : Client L) (today : Date)
    (ids : List Int) (c : Cache L) (tr : List RCall) (p : Int) (d : Date)
    (hs : cl.selectOk p = false) (hmem : p ∈ ids) :
    cacheGet (ids.foldl (refreshFoldStep cl today) (c, tr)).1 p d =
      if today - 7 ≤ d then cacheGet c p d else none := by
  induction ids generalizing c tr with
  | nil => simp at hmem
  | cons pid rest ih =>
    simp only [List.foldl_cons]
    rw [show refreshFoldStep cl today (c, tr) pid =
          ((refreshPupilStep cl today c pid).1,
            tr ++ (refreshPupilStep cl today c pid).2) from rfl]
    by_cases hr : p ∈ rest
    · rw [ih _ _ hr]
      by_cases hq : p = pid
      · subst hq
        rw [refreshPupilStep_selectfail _ _ _ _ _ hs]
        by_cases hd : today - 7 ≤ d <;> simp [hd]
      · rw [refreshPupilStep_frame _ _ _ _ _ _ hq]
    · have hq : pid = p := by
        rcases List.mem_cons.mp hmem with h | h
        · exact h.symm
        · exact absurd h hr
      subst hq
      rw [refreshFold_frame _ _ _ _ _ _ _ hr]
      exact refreshPupilStep_selectfail cl today c pid d hs

/-- Membership in the trace of a refresh cycle. -/
theorem mem_tracesFor {L : Type} (cl : Client L) (today : Date)
    (ids : List Int) (x : RCall) :
    x ∈ tracesFor cl today ids ↔
      ∃ pid ∈ ids, x ∈ pupilTrace cl today pid := by
  induction ids with
  | nil => simp [tracesFor]
  | cons pid rest ih =>
    simp only [tracesFor, List.mem_append, ih, List.mem_cons]
    constructor
    · rintro (h | ⟨q, hq, hx⟩)
      · exact ⟨pid, Or.inl rfl, h⟩
      · exact ⟨q, Or.inr hq, hx⟩
    · rintro ⟨q, hq | hq, hx⟩
      · subst hq
        exact Or.inl hx
      · exact Or.inr ⟨q, hq, hx⟩

/-- Folding the roster construction preserves presence of a key. -/
theorem roster_fold_preserves (l : List Pupil) (acc : List (Int × Pupil))
    (k : Int) (h : (dlookup acc k).isSome = true) :
    (dlookup (l.foldl (fun d q => dinsert d q.id q) acc) k).isSome = true := by
  induction l generalizing acc with
  | nil => exact h
  | cons r rest ih =>
    simp only [List.foldl_cons]
    apply ih
    rw [dlookup_dinsert]
    by_cases hk : k = r.id <;> simp [h, hk]

/-- Roster lookups: folding `dinsert` over the pupil list makes every
listed pupil's id present. -/
theorem roster_lookup_isSome (pupils_list : List Pupil)
    (acc : List (Int × Pupil)) (p : Pupil) (hp : p ∈ pupils_list) :
    (dlookup (pupils_list.foldl (fun d q => dinsert d q.id q) acc) p.id).isSome
      = true := by
  induction pupils_list generalizing acc with
  | nil => simp at hp
  | cons q rest ih =>
    simp only [List.foldl_cons]
    by_cases hr : p ∈ rest
    · exact ih _ hr
    · have hq : q = p := by
        rcases List.mem_cons.mp hp with h | h
        · exact h.symm
        · exact absurd h hr
      subst hq
      apply roster_fold_preserves
      rw [dlookup_dinsert]
      simp

/-! ## Claims -/

/-- C1 (counterexample): contrary to the claim, the scenario lesson with
`start_time "09:00"`, `end_time "09:50"`, `subject_name "Maths"`,
`room_name "R1"` produces no calendar event at all — with or without a
`date` key — because `_lesson_to_event` parses times with `parse_datetime`,
which rejects bare `HH:MM` time-of-day strings. -/
theorem C1_hhmm_scenario_produces_no_event :
    parse_datetime "09:00" = none ∧
    lessons_to_events [hhmmLesson] = [] ∧
    lessons_to_events [hhmmLessonNoDate] = [] :=
  ⟨by decide, by decide, by decide⟩

/-- C1 (amended): the time parsing accepts only full ISO-8601 timestamps,
not `HH:MM` time-of-day strings; for the scenario lesson with ISO times
`2024-05-01T09:00:00` / `2024-05-01T09:50:00` (and a `date` key) exactly
one event is produced, with those start and end timestamps, title
`"Maths"`, location `"R1"` and description `"Room: R1"`. -/
theorem C1_iso_scenario_renders :
    lessons_to_events [isoLesson] =
      [⟨⟨2024, 5, 1, 9, 0, 0⟩, ⟨2024, 5, 1, 9, 50, 0⟩, "Maths",
        some "Room: R1", some "R1"⟩] ∧
    parse_datetime "2024-05-01T09:00:00" = some ⟨2024, 5, 1, 9, 0, 0⟩ :=
  ⟨by decide, by decide⟩

/-- The description lines built by `_lesson_to_event` coincide with the
spec's present-only labelled fields in fixed order. -/
theorem spec_parts_eq_code_parts (lesson : Lesson) :
    (specDescriptionFields lesson).filterMap (fun lv =>
      if truthy lv.2 then some (lv.1 ++ ": " ++ lv.2.getD "") else none) =
      (if truthy lesson.teacher_name then
        ["Teacher: " ++ lesson.teacher_name.getD ""] else []) ++
      (if truthy lesson.room_name then
        ["Room: " ++ lesson.room_name.getD ""] else []) ++
      (if truthy lesson.period_name then
        ["Period: " ++ lesson.period_name.getD ""] else []) ++
      (if truthy lesson.note then
        ["Note: " ++ lesson.note.getD ""] else []) ++
      (if truthy lesson.pupil_note then
        ["Your Note: " ++ lesson.pupil_note.getD ""] else []) := by
  unfold specDescriptionFields
  cases h1 : truthy lesson.teacher_name <;>
    cases h2 : truthy lesson.room_name <;>
    cases h3 : truthy lesson.period_name <;>
    cases h4 : truthy lesson.note <;>
    cases h5 : truthy lesson.pupil_note <;>
    simp [List.filterMap, h1, h2, h3, h4, h5]

/-- C2: for every lesson with non-empty, parsable start and end times, the
rendered event carries the spec's title (subject, or
`"subject - lesson_name"` when the lesson name is present and different),
the room name as location, and the spec's description (present-only
labelled fields in the fixed order Teacher, Room, Period, Note, Your Note,
joined by newline; absent when no field is present). -/
theorem C2_event_fields_match_contract (lesson : Lesson)
    (ld : Nat × Nat × Nat) (s e : PDateTime)
    (hs0 : (lesson.start_time.getD "").isEmpty = false)
    (he0 : (lesson.end_time.getD "").isEmpty = false)
    (hs : parse_datetime (lesson.start_time.getD "") = some s)
    (he : parse_datetime (lesson.end_time.getD "") = some e) :
    lesson_to_event lesson ld =
      some ⟨s, e, specTitle lesson, specDescription lesson,
            lesson.room_name⟩ := by
  simp only [lesson_to_event, hs0, he0, hs, he, Bool.or_self,
    Bool.false_eq_true, if_false, Option.some.injEq, CalendarEvent.mk.injEq]
  refine ⟨trivial, trivial, ?_, ?_, trivial⟩
  · rfl
  · simp only [specDescription]
    rw [spec_parts_eq_code_parts]

/-- C2 (witness): the contract theorem applied to a concrete lesson with
every optional field present. -/
theorem C2_witness :
    lesson_to_event fullLesson (2024, 5, 1) =
      some ⟨⟨2024, 5, 1, 9, 0, 0⟩, ⟨2024, 5, 1, 9, 50, 0⟩,
            "Maths - Set 1",
            some ("Teacher: Ms Smith\nRoom: R1\nPeriod: P1\n" ++
              "Note: bring books\nYour Note: revise"),
            some "R1"⟩ := by
  have h := C2_event_fields_match_contract fullLesson (2024, 5, 1)
    ⟨2024, 5, 1, 9, 0, 0⟩ ⟨2024, 5, 1, 9, 50, 0⟩
    (by decide) (by decide) (by decide) (by decide)
  rw [h]
  decide

/-- C4: if authentication or the pupil-roster fetch fails, the refresh cycle
raises a refresh failure and the coordinator's published roster and
timetable cache are exactly as they were before the cycle started. -/
theorem C4_auth_or_roster_failure_aborts_unchanged {L : Type} (cl : Client L)
    (today : Date) (st : CoordState L)
    (h : cl.loginOk = false ∨ cl.getPupils = none) :
    (async_update_data cl today st).ok = false ∧
      (async_update_data cl today st).state = st := by
  unfold async_update_data
  rcases h with h | h
  · simp [h]
  · rcases hl : cl.loginOk <;> simp [h, hl]

/-- C4 (witness): a failing login leaves a concrete state untouched. -/
theorem C4_witness :
    (async_update_data clientLoginFail 0 ⟨[], []⟩).ok = false ∧
      (async_update_data clientLoginFail 0 ⟨[], []⟩).state = ⟨[], []⟩ :=
  C4_auth_or_roster_failure_aborts_unchanged clientLoginFail 0 ⟨[], []⟩
    (Or.inl rfl)

/-- C6: pruning a pupil's cache removes exactly the entries dated strictly
before `today - 7`: every lookup of a date on or after the cutoff is
unchanged and every lookup of an earlier date is gone; in particular
`today - 8` is removed and `today - 7` is retained. -/
theorem C6_prune_cutoff_exact {L : Type} (today : Int) (pid : Int)
    (c : Cache L) (d : Int) :
    (cacheGet (prune_cache_for_pupil today pid c) pid d =
      if today - 7 ≤ d then cacheGet c pid d else none) ∧
    cacheGet (prune_cache_for_pupil today pid c) pid (today - 8) = none ∧
    cacheGet (prune_cache_for_pupil today pid c) pid (today - 7) =
      cacheGet c pid (today - 7) := by
  refine ⟨?_, ?_, ?_⟩
  · rw [cacheGet_prune]
    simp
  · rw [cacheGet_prune]
    have hx : ¬(today - 7 ≤ today - 8) := by omega
    simp [hx]
  · rw [cacheGet_prune]
    simp

/-- C7 (counterexample): pruning a pupil with no cache entries is not a
no-op on the whole mapping — for an absent pupil key the source's
unconditional `self._timetable_cache[pupil_id] = {...}` inserts the key. -/
theorem C7_prune_inserts_missing_key :
    prune_cache_for_pupil (L := Nat) 0 42 [] = [(42, [])] ∧
      ([(42, [])] : Cache Nat) ≠ [] := by
  exact ⟨by decide, by decide⟩

/-- C7 (amended): pruning a pupil with no cached dates changes no cache
entry (every per-pupil, per-date lookup is unchanged); the mapping itself
is unchanged when the pupil's key is present (with an empty date dict),
and gains exactly an empty entry for the pupil when the key was absent. -/
theorem C7_prune_no_dates_effect {L : Type} (today : Date) (pid : Int)
    (c : Cache L)
    (h : dlookup c pid = none ∨ dlookup c pid = some []) :
    (∀ p d, cacheGet (prune_cache_for_pupil today pid c) p d =
      cacheGet c p d) ∧
    prune_cache_for_pupil today pid c =
      (if (dlookup c pid).isNone then c ++ [(pid, [])] else c) := by
  constructor
  · intro p d
    rw [cacheGet_prune]
    by_cases hp : p = pid
    · subst hp
      rcases h with h | h <;> simp [cacheGet_eq, h, dlookup]
    · simp [hp]
  · rcases h with h | h
    · rw [if_pos (by simp [h] : (dlookup c pid).isNone = true)]
      rw [show prune_cache_for_pupil today pid c =
            dinsert c pid (((dlookup c pid).getD []).filter
              (fun e => decide (today - 7 ≤ e.1))) from rfl]
      rw [h]
      exact dinsert_of_absent c pid [] h
    · rw [if_neg (by simp [h] : ¬(dlookup c pid).isNone = true)]
      rw [show prune_cache_for_pupil today pid c =
            dinsert c pid (((dlookup c pid).getD []).filter
              (fun e => decide (today - 7 ≤ e.1))) from rfl]
      rw [h]
      exact dinsert_self c pid [] h

/-- C7 (witness): the amended statement applied to the empty cache. -/
theorem C7_witness :
    (dlookup ([] : Cache Nat) 42 = none ∨
      dlookup ([] : Cache Nat) 42 = some []) ∧
    prune_cache_for_pupil 0 42 ([] : Cache Nat) =
      (if (dlookup ([] : Cache Nat) 42).isNone then
        ([] : Cache Nat) ++ [(42, [])] else []) :=
  ⟨Or.inl rfl, (C7_prune_no_dates_effect 0 42 [] (Or.inl rfl)).2⟩

/-- Fetching an empty date list never changes the cache. -/
theorem cache_lessons_nil {L : Type} (cl : Client L) (pid : Int)
    (c : Cache L) :
    (cache_lesson_data_for_pupil_for_dates cl pid [] c).1 = c := by
  unfold cache_lesson_data_for_pupil_for_dates
  by_cases hs : cl.selectOk pid <;> simp [hs, cacheLessonsAux]

/-- C9: writing a lesson list into the cache for `(pupil, date)` and then
querying the single-day range `[date, date]` returns exactly that list,
for every client, pupil, date, list and prior cache. -/
theorem C9_put_then_single_day_query_roundtrip {L : Type} (cl : Client L)
    (pid : Int) (d : Date) (ls : List L) (c : Cache L) :
    (get_lesson_data_for_pupil_between_dates cl pid d d
      (cachePut c pid d ls)).1 = ls := by
  have hdr : dateRange d d = [d] := by
    have h1 : (d - d + 1).toNat = 1 := by omega
    rw [dateRange, h1]
    simp [List.range_succ]
  have hget0 : cacheGet (dsetdefault (cachePut c pid d ls) pid []) pid d =
      some ls := by
    rw [cacheGet_dsetdefault, cacheGet_cachePut]
    simp
  simp only [get_lesson_data_for_pupil_between_dates, hdr]
  rw [show List.filter
        (fun d' => (cacheGet (dsetdefault (cachePut c pid d ls) pid [])
          pid d').isNone) [d] = [] from by simp [List.filter, hget0]]
  rw [cache_lessons_nil]
  simp [List.foldl, hget0]

/-- C10: every call to the on-demand range query issues a `select_pupil`
remote call — also when all dates are cached and when the range is empty. -/
theorem C10_query_always_selects {L : Type} (cl : Client L) (pid : Int)
    (sd ed : Date) (c : Cache L) :
    RCall.select pid ∈
      (get_lesson_data_for_pupil_between_dates cl pid sd ed c).2.2 := by
  simp only [get_lesson_data_for_pupil_between_dates]
  rw [cache_lessons_trace]
  exact List.mem_cons_self _ _

/-- C5: every `get_lessons` fetch issued by the on-demand range query is for
the queried pupil, for a date inside the inclusive range, and for a date
that was not cached for that pupil when the call started. -/
theorem C5_fetches_only_missing_dates {L : Type} (cl : Client L) (pid : Int)
    (sd ed : Int) (c : Cache L) (p : Int) (d : Int)
    (h : RCall.fetch p d ∈
      (get_lesson_data_for_pupil_between_dates cl pid sd ed c).2.2) :
    p = pid ∧ d ∈ dateRange sd ed ∧ cacheGet c pid d = none := by
  simp only [get_lesson_data_for_pupil_between_dates] at h
  rw [cache_lessons_trace] at h
  rcases List.mem_cons.mp h with h1 | h1
  · simp at h1
  · by_cases hs : cl.selectOk pid
    · rw [if_pos hs] at h1
      obtain ⟨d', hd', heq⟩ := List.mem_map.mp h1
      injection heq with e1 e2
      subst e1
      subst e2
      have hf := List.mem_filter.mp hd'
      refine ⟨rfl, hf.1, ?_⟩
      have h2 := hf.2
      rw [cacheGet_dsetdefault] at h2
      exact Option.isNone_iff_eq_none.mp h2
    · rw [if_neg hs] at h1
      simp at h1

/-- C5 (witness): querying `[0, 1]` for pupil 7 with date 1 already cached
only fetches the uncached date 0. -/
theorem C5_witness :
    (7 : Int) = 7 ∧ (0 : Int) ∈ dateRange 0 1 ∧
      cacheGet cacheWithDate1 7 0 = none :=
  C5_fetches_only_missing_dates clientOkAll 7 0 1 cacheWithDate1 7 0
    (by decide)

/-- C8: the on-demand range query changes no cache entry of another pupil
and no entry of the queried pupil outside the inclusive date range. -/
theorem C8_query_preserves_other_entries {L : Type} (cl : Client L)
    (pid : Int) (sd ed : Int) (c : Cache L) (p : Int) (d : Int)
    (h : p ≠ pid ∨ d < sd ∨ ed < d) :
    cacheGet (get_lesson_data_for_pupil_between_dates cl pid sd ed c).2.1 p d
      = cacheGet c p d := by
  simp only [get_lesson_data_for_pupil_between_dates]
  unfold cache_lesson_data_for_pupil_for_dates
  by_cases hp : p = pid
  · subst hp
    have hd : d ∉ dateRange sd ed := by
      rw [mem_dateRange]
      rcases h with h1 | h1 | h1
      · exact absurd rfl h1
      · omega
      · omega
    have hd2 : d ∉ List.filter
        (fun d' => (cacheGet (dsetdefault c p []) p d').isNone)
        (dateRange sd ed) := fun hc => hd (List.mem_filter.mp hc).1
    by_cases hs : cl.selectOk p
    · simp only [hs, if_true]
      rw [cacheLessonsAux_notmem _ _ _ _ _ hd2, cacheGet_dsetdefault]
    · simp only [hs, Bool.false_eq_true, if_false]
      rw [cacheGet_dsetdefault]
  · by_cases hs : cl.selectOk pid
    · simp only [hs, if_true]
      rw [cacheLessonsAux_frame _ _ _ _ _ _ hp, cacheGet_dsetdefault]
    · simp only [hs, Bool.false_eq_true, if_false]
      rw [cacheGet_dsetdefault]

/-- C8 (witness): a query for pupil 1 leaves pupil 2's cached date 0
untouched. -/
theorem C8_witness :
    cacheGet (get_lesson_data_for_pupil_between_dates clientOkAll 1 0 1
      cacheP2).2.1 2 0 = cacheGet cacheP2 2 0 :=
  C8_query_preserves_other_entries clientOkAll 1 0 1 cacheP2 2 0
    (Or.inl (by decide))

/-- A fetch recorded in a pupil's refresh trace is for that pupil, implies
its selection succeeded, and is for a window date. -/
theorem fetch_mem_pupilTrace {L : Type} (cl : Client L) (today : Int)
    (q pid : Int) (d : Int)
    (h : RCall.fetch pid d ∈ pupilTrace cl today q) :
    pid = q ∧ cl.selectOk q = true ∧ d ∈ fetchWindow today := by
  unfold pupilTrace at h
  rcases List.mem_cons.mp h with h1 | h1
  · simp at h1
  · by_cases hs : cl.selectOk q
    · rw [if_pos hs] at h1
      obtain ⟨d', hd', heq⟩ := List.mem_map.mp h1
      injection heq with e1 e2
      subst e1
      subst e2
      exact ⟨rfl, hs, hd'⟩
    · rw [if_neg hs] at h1
      simp at h1

/-- C3 (counterexample): contrary to the claim, a pupil whose
`select_pupil` fails does not keep its timetable cache untouched for the
cycle — the pruning step has already run.  With today = 0, pupil 42's
stale entry for date −8 is present before the refresh and gone after it,
even though every selection failed (and the cycle still succeeded). -/
theorem C3_select_failure_cache_still_pruned :
    (async_update_data clientSelectFail 0 stateStale).ok = true ∧
    cacheGet stateStale.cache 42 (-8) = some [7] ∧
    cacheGet (async_update_data clientSelectFail 0 stateStale).state.cache
      42 (-8) = none :=
  ⟨by decide, by decide, by decide⟩

/-- C3 (amended): in a refresh cycle whose login and roster fetch succeed:
the cycle reports success; the new roster is published wholesale and
contains every fetched pupil; a pupil whose selection fails gets no
lesson fetches, while every pupil still gets a selection attempt
(processing continues across pupils); a per-date fetch failure for a
selected pupil leaves that date's prior entry unchanged (for dates the
pruning retains); a succeeding window date is cached for every pupil in
the roster; and the cache of a selection-failed pupil is exactly its
pruned prior state (so it is untouched except for the pruning pass). -/
theorem C3_refresh_failure_isolation {L : Type} (cl : Client L)
    (today : Int) (st : CoordState L) (pl : List Pupil)
    (hl : cl.loginOk = true) (hp : cl.getPupils = some pl) :
    (async_update_data cl today st).ok = true ∧
    (async_update_data cl today st).state.pupils = rosterDict pl ∧
    (∀ p, p ∈ pl →
      (dlookup (async_update_data cl today st).state.pupils p.id).isSome
        = true) ∧
    (∀ pid d, cl.selectOk pid = false →
      RCall.fetch pid d ∉ (async_update_data cl today st).trace) ∧
    (∀ pid, pid ∈ (rosterDict pl).map Prod.fst →
      RCall.select pid ∈ (async_update_data cl today st).trace) ∧
    (∀ pid d, cl.selectOk pid = true → cl.getLessons pid d = .err →
      today - 7 ≤ d →
      cacheGet (async_update_data cl today st).state.cache pid d =
        cacheGet st.cache pid d) ∧
    (∀ pid d ls, pid ∈ (rosterDict pl).map Prod.fst →
      cl.selectOk pid = true → cl.getLessons pid d = .ok ls →
      d ∈ fetchWindow today →
      cacheGet (async_update_data cl today st).state.cache pid d =
        some ls) ∧
    (∀ pid d, cl.selectOk pid = false →
      pid ∈ (rosterDict pl).map Prod.fst →
      cacheGet (async_update_data cl today st).state.cache pid d =
        (if today - 7 ≤ d then cacheGet st.cache pid d else none)) := by
  have hR : async_update_data cl today st =
      ⟨true, ⟨rosterDict pl,
        (((rosterDict pl).map Prod.fst).foldl (refreshFoldStep cl today)
          (st.cache, [])).1⟩,
        (((rosterDict pl).map Prod.fst).foldl (refreshFoldStep cl today)
          (st.cache, [])).2⟩ := by
    unfold async_update_data
    rw [hp]
    simp [hl]
  have hcache : (async_update_data cl today st).state.cache =
      (((rosterDict pl).map Prod.fst).foldl (refreshFoldStep cl today)
        (st.cache, [])).1 := by
    rw [hR]
  have htrace : (async_update_data cl today st).trace =
      tracesFor cl today ((rosterDict pl).map Prod.fst) := by
    rw [hR]
    rw [show (⟨true, ⟨rosterDict pl,
        (((rosterDict pl).map Prod.fst).foldl (refreshFoldStep cl today)
          (st.cache, [])).1⟩,
        (((rosterDict pl).map Prod.fst).foldl (refreshFoldStep cl today)
          (st.cache, [])).2⟩ : UpdateResult L).trace =
      (((rosterDict pl).map Prod.fst).foldl (refreshFoldStep cl today)
        (st.cache, [])).2 from rfl]
    rw [refreshFold_trace]
    simp
  refine ⟨by rw [hR], by rw [hR], ?_, ?_, ?_, ?_, ?_, ?_⟩
  · intro p hmem
    rw [hR]
    exact roster_lookup_isSome pl [] p hmem
  · intro pid d hsel hmem
    rw [htrace] at hmem
    obtain ⟨q, hq, hx⟩ := (mem_tracesFor cl today _ _).mp hmem
    obtain ⟨e1, hs, _⟩ := fetch_mem_pupilTrace cl today q pid d hx
    subst e1
    rw [hsel] at hs
    cases hs
  · intro pid hmem
    rw [htrace]
    exact (mem_tracesFor cl today _ _).mpr
      ⟨pid, hmem, List.mem_cons_self _ _⟩
  · intro pid d hs hf hd
    rw [hcache]
    exact refreshFold_err cl today _ st.cache [] pid d hs hf hd
  · intro pid d ls hmem hs hf hd
    rw [hcache]
    exact refreshFold_ok cl today _ st.cache [] pid d ls hs hf hd hmem
  · intro pid d hs hmem
    rw [hcache]
    exact refreshFold_selectfail cl today _ st.cache [] pid d hs hmem

/-- C3 (witness): with two pupils where only 43's selection succeeds,
pupil 43's window date 0 is fetched and cached while no fetch is issued
for pupil 42. -/
theorem C3_witness :
    cacheGet (async_update_data clientTwoPupils 0
      ⟨[], []⟩).state.cache 43 0 = some [5] ∧
    RCall.fetch 42 0 ∉ (async_update_data clientTwoPupils 0
      ⟨[], []⟩).trace := by
  have h := C3_refresh_failure_isolation clientTwoPupils 0 ⟨[], []⟩
    [⟨42, "a"⟩, ⟨43, "b"⟩] rfl rfl
  exact ⟨h.2.2.2.2.2.2.1 43 0 [5] (by decide) (by decide) (by decide)
      (by decide),
    h.2.2.2.1 42 0 (by decide)⟩

end ClassCharts
